import Mathlib

/-!
Verification of the fixed-point arithmetic and notification pipeline of the
beefy-cowllector-v2 repository.  The definitions below are a shallow embedding
of `src/util/bigint.ts` and `src/lib/notify.ts`: JS `bigint` values are
modelled as `Int`, JS `number` values as exact rationals where they enter the
arithmetic, JS `bigint` division (which truncates toward zero) as `Int.tdiv`,
and the decimal rendering of a `bigint` (`toString`) as `Nat.repr`.
-/

/-! ### Embedding of `src/util/bigint.ts` -/

/-- JS `Math.round` semantics on an exact rational: round half toward positive
infinity, i.e. the floor of `q + 1/2`. -/
def jsRound (q : ℚ) : Int := ⌊q + 1/2⌋

/-- Embedding of `bigintPercent(n, percent, precision = 4)` from
`src/util/bigint.ts`:

    const divisor = 10 ** precision;
    const mult = BigInt(Math.round(percent * divisor));
    return (n * mult) / BigInt(divisor);

The JS `number` argument `percent` is modelled as an exact rational and the
double `10 ** precision` as the exact power of ten (the double value is exact
for every `precision ≤ 22`; the repository only ever uses the default
`precision = 4`).  JS `bigint` division truncates toward zero (`Int.tdiv`). -/
def bigintPercent (n : Int) (percent : ℚ) (precision : Nat) : Int :=
  let mult : Int := jsRound (percent * 10 ^ precision)
  Int.tdiv (n * mult) (10 ^ precision)

/-- Embedding of JS `s.padStart(len, c)` for a one-character pad string: left
pad with `c` up to length `len`, returning `s` unchanged when it is already at
least that long. -/
def padStart (s : String) (len : Nat) (c : Char) : String :=
  String.mk (List.replicate (len - s.length) c ++ s.data)

/-- Embedding of `bigintFormat(n, decimal)` from `src/util/bigint.ts`:

    const sign = n < 0 ? '-' : '';
    n = n < 0 ? -n : n;
    const div = BigInt(10 ** decimal);
    const decimalPart = (n % div).toString().padStart(decimal, '0');
    const integerPart = (n / div).toString();
    return `(sign)(integerPart).(decimalPart)`;

The double `10 ** decimal` is again modelled as the exact power of ten (exact
for `decimal ≤ 22`; every call in the repository uses `decimal = 18`).  Note
the function takes exactly two parameters and performs no truncation of the
fractional part to a display width. -/
def bigintFormat (n : Int) (decimal : Nat) : String :=
  let sign : String := if n < 0 then "-" else ""
  let m : Nat := n.natAbs
  let div : Nat := 10 ^ decimal
  let decimalPart : String := padStart (Nat.repr (m % div)) decimal '0'
  let integerPart : String := Nat.repr (m / div)
  sign ++ integerPart ++ "." ++ decimalPart

/-- Call-site semantics of the three-argument calls `bigintFormat(x, 18, 6)`
appearing in `src/lib/notify.ts` (`getBalanceReportTable`): JS ignores extra
arguments at run time, so the two-parameter `bigintFormat` receives and uses
only `n` and `decimal`, and the requested display width is dropped. -/
def bigintFormatCall (n : Int) (decimal : Nat) (displayDigits : Nat) : String :=
  bigintFormat n decimal

/-! ### Decimal digit strings

`Nat.repr` is the embedding of JS `bigint.toString()`.  To reason about it we
relate it to a reference digit list `natDigits` and prove that reading the
digits back recovers the number. -/

/-- Numeric value of a decimal digit character. -/
def digitVal (c : Char) : Nat := c.toNat - 48

/-- Fold step accumulating one more decimal digit (most significant first). -/
def stepDigit (acc : Nat) (c : Char) : Nat := 10 * acc + digitVal c

/-- Numeric value of a list of decimal digit characters, most significant
first. -/
def parseDigits (l : List Char) : Nat := l.foldl stepDigit 0

/-- Reference decimal digit list of a natural number, most significant digit
first. -/
def natDigits (n : Nat) : List Char :=
  if h : n < 10 then [Nat.digitChar n]
  else natDigits (n / 10) ++ [Nat.digitChar (n % 10)]
termination_by n
decreasing_by
  exact Nat.div_lt_self (by omega) (by omega)

theorem natDigits_ne_nil (n : Nat) : natDigits n ≠ [] := by
  rw [natDigits]
  split
  · simp
  · simp

theorem digitChar_isDigit : ∀ d < 10, (Nat.digitChar d).isDigit = true := by decide

theorem digitVal_digitChar : ∀ d < 10, digitVal (Nat.digitChar d) = d := by decide

theorem natDigits_isDigit (n : Nat) : ∀ c ∈ natDigits n, c.isDigit = true := by
  induction n using Nat.strong_induction_on with
  | _ n ih =>
    rw [natDigits]
    split
    · next h =>
      intro c hc
      rw [List.mem_singleton] at hc
      subst hc
      exact digitChar_isDigit n h
    · next h =>
      intro c hc
      rw [List.mem_append] at hc
      rcases hc with hc | hc
      · exact ih (n / 10) (Nat.div_lt_self (by omega) (by omega)) c hc
      · rw [List.mem_singleton] at hc
        subst hc
        exact digitChar_isDigit (n % 10) (Nat.mod_lt _ (by omega))

theorem toDigitsCore_eq : ∀ (fuel n : Nat) (ds : List Char), n < 10 ^ (fuel + 1) →
    Nat.toDigitsCore 10 (fuel + 1) n ds = natDigits n ++ ds := by
  intro fuel
  induction fuel with
  | zero =>
    intro n ds h
    have h10 : n < 10 := by simpa using h
    have hz : n / 10 = 0 := Nat.div_eq_of_lt h10
    rw [Nat.toDigitsCore]
    rw [if_pos hz]
    rw [natDigits, dif_pos h10]
    simp [Nat.mod_eq_of_lt h10]
  | succ f ih =>
    intro n ds h
    rw [Nat.toDigitsCore]
    by_cases h10 : n < 10
    · have hz : n / 10 = 0 := Nat.div_eq_of_lt h10
      rw [if_pos hz]
      rw [natDigits, dif_pos h10]
      simp [Nat.mod_eq_of_lt h10]
    · have hz : ¬ n / 10 = 0 := by
        rw [Nat.div_eq_zero_iff (by omega)]
        exact h10
      rw [if_neg hz]
      have hlt : n / 10 < 10 ^ (f + 1) := by
        rw [Nat.div_lt_iff_lt_mul (by norm_num)]
        calc n < 10 ^ (f + 1 + 1) := h
        _ = 10 ^ (f + 1) * 10 := by ring
      rw [ih (n / 10) (Nat.digitChar (n % 10) :: ds) hlt]
      conv_rhs => rw [natDigits, dif_neg h10]
      simp

theorem repr_data_eq_natDigits (n : Nat) : (Nat.repr n).data = natDigits n := by
  have h : n < 10 ^ (n + 1) :=
    lt_of_lt_of_le (Nat.lt_pow_self (by norm_num) n)
      (Nat.pow_le_pow_right (by norm_num) (Nat.le_succ n))
  show (Nat.toDigits 10 n).asString.data = natDigits n
  rw [Nat.toDigits, toDigitsCore_eq n n [] h]
  simp [List.asString]

theorem foldl_stepDigit_natDigits (n : Nat) : ∀ a : Nat,
    List.foldl stepDigit a (natDigits n) = a * 10 ^ (natDigits n).length + n := by
  induction n using Nat.strong_induction_on with
  | _ n ih =>
    intro a
    rw [natDigits]
    split
    · next h =>
      simp only [List.foldl_cons, List.foldl_nil, List.length_singleton, pow_one, stepDigit]
      rw [digitVal_digitChar n h]
      omega
    · next h =>
      rw [List.foldl_append]
      rw [ih (n / 10) (Nat.div_lt_self (by omega) (by omega)) a]
      simp only [List.foldl_cons, List.foldl_nil, List.length_append, List.length_singleton,
        stepDigit]
      rw [digitVal_digitChar (n % 10) (Nat.mod_lt _ (by omega))]
      have hdm : 10 * (n / 10) + n % 10 = n := Nat.div_add_mod n 10
      calc 10 * (a * 10 ^ (natDigits (n / 10)).length + n / 10) + n % 10
          = a * 10 ^ ((natDigits (n / 10)).length + 1) + (10 * (n / 10) + n % 10) := by ring
        _ = a * 10 ^ ((natDigits (n / 10)).length + 1) + n := by rw [hdm]

theorem parseDigits_natDigits (n : Nat) : parseDigits (natDigits n) = n := by
  have := foldl_stepDigit_natDigits n 0
  simpa [parseDigits] using this

theorem parseDigits_repr (n : Nat) : parseDigits (Nat.repr n).data = n := by
  rw [repr_data_eq_natDigits, parseDigits_natDigits]

theorem foldl_stepDigit_zeros (k : Nat) :
    List.foldl stepDigit 0 (List.replicate k '0') = 0 := by
  induction k with
  | zero => rfl
  | succ k ih =>
    rw [List.replicate_succ, List.foldl_cons]
    have h0 : stepDigit 0 '0' = 0 := by decide
    rw [h0]
    exact ih

theorem parseDigits_leftpad_zeros (k : Nat) (l : List Char) :
    parseDigits (List.replicate k '0' ++ l) = parseDigits l := by
  unfold parseDigits
  rw [List.foldl_append, foldl_stepDigit_zeros]

/-! ### Parsing a formatted decimal string back (property side)

The repository has no decimal parser; the spec's round-trip property (§8)
speaks of "parsing the resulting decimal string back to an integer at scale
`s`".  The following definitions follow the spec's words: strip an optional
leading `-`, split at the decimal point, and read `intpart * 10 ^ scale +
fracpart`. -/

/-- Split a character list at the first `'.'`: everything before it and
everything after it. -/
def splitAtDot : List Char → List Char × List Char
  | [] => ([], [])
  | c :: cs =>
    if c = '.' then ([], cs)
    else
      let p := splitAtDot cs
      (c :: p.1, p.2)

/-- Modelled from the spec: value of an unsigned decimal string
`intpart.fracpart` read back at scale `scale`, i.e.
`intpart * 10 ^ scale + fracpart`. -/
def parseUnsigned (scale : Nat) (l : List Char) : Int :=
  let p := splitAtDot l
  ((parseDigits p.1 * 10 ^ scale + parseDigits p.2 : Nat) : Int)

/-- Modelled from the spec: sign handling of the parse; a leading `-` negates
the unsigned value. -/
def parseSigned (scale : Nat) : List Char → Int
  | [] => 0
  | c :: cs => if c = '-' then -(parseUnsigned scale cs) else parseUnsigned scale (c :: cs)

/-- Modelled from the spec: parse a sign-prefixed fixed-point decimal string
back to the integer it denotes at scale `scale`. -/
def parseFixedPoint (scale : Nat) (s : String) : Int := parseSigned scale s.data

theorem splitAtDot_append (l1 l2 : List Char) (h : '.' ∉ l1) :
    splitAtDot (l1 ++ '.' :: l2) = (l1, l2) := by
  induction l1 with
  | nil => simp [splitAtDot]
  | cons c cs ih =>
    have hc : c ≠ '.' := by
      intro hc
      exact h (hc ▸ List.mem_cons_self c cs)
    have hcs : '.' ∉ cs := fun hm => h (List.mem_cons_of_mem c hm)
    simp [splitAtDot, hc, ih hcs]

/-- The character list underlying a formatted amount: optional sign, digits of
the integer part, a dot, then the fractional digits left-padded with zeros. -/
theorem bigintFormat_data (n : Int) (s : Nat) :
    (bigintFormat n s).data =
      (if n < 0 then ['-'] else [])
        ++ natDigits (n.natAbs / 10 ^ s)
        ++ '.' :: (List.replicate (s - (natDigits (n.natAbs % 10 ^ s)).length) '0'
             ++ natDigits (n.natAbs % 10 ^ s)) := by
  have hlen : (Nat.repr (n.natAbs % 10 ^ s)).length = (natDigits (n.natAbs % 10 ^ s)).length := by
    show (Nat.repr (n.natAbs % 10 ^ s)).data.length = _
    rw [repr_data_eq_natDigits]
  by_cases hn : n < 0
  · simp only [bigintFormat, padStart, if_pos hn, String.data_append, repr_data_eq_natDigits,
      hlen]
    simp
  · simp only [bigintFormat, padStart, if_neg hn, String.data_append, repr_data_eq_natDigits,
      hlen]
    simp

theorem isDigit_ne_dot {c : Char} (h : c.isDigit = true) : c ≠ '.' := by
  intro hc
  subst hc
  exact absurd h (by decide)

theorem isDigit_ne_dash {c : Char} (h : c.isDigit = true) : c ≠ '-' := by
  intro hc
  subst hc
  exact absurd h (by decide)

theorem parseUnsigned_format_core (m s : Nat) :
    parseUnsigned s
      (natDigits (m / 10 ^ s)
        ++ '.' :: (List.replicate (s - (natDigits (m % 10 ^ s)).length) '0'
             ++ natDigits (m % 10 ^ s))) = (m : Int) := by
  have hdot : '.' ∉ natDigits (m / 10 ^ s) := fun hm =>
    isDigit_ne_dot (natDigits_isDigit _ _ hm) rfl
  unfold parseUnsigned
  rw [splitAtDot_append _ _ hdot]
  simp only
  rw [parseDigits_natDigits, parseDigits_leftpad_zeros, parseDigits_natDigits]
  rw [Nat.div_add_mod']

theorem parseSigned_cons (scale : Nat) (c : Char) (cs : List Char) :
    parseSigned scale (c :: cs) =
      if c = '-' then -(parseUnsigned scale cs) else parseUnsigned scale (c :: cs) := rfl

/-- C7: for every big integer `raw` and every scale `s`, formatting at full
precision (`bigintFormat(raw, s)`, i.e. `s` display digits) and parsing the
resulting decimal string back at scale `s` recovers `raw` exactly, including
negative `raw` and magnitudes below `10 ^ s`. -/
theorem bigintFormat_round_trip (n : Int) (s : Nat) :
    parseFixedPoint s (bigintFormat n s) = n := by
  have hcore := parseUnsigned_format_core n.natAbs s
  obtain ⟨c, cs, hcs⟩ := List.exists_cons_of_ne_nil (natDigits_ne_nil (n.natAbs / 10 ^ s))
  unfold parseFixedPoint
  rw [bigintFormat_data n s]
  by_cases hn : n < 0
  · rw [if_pos hn]
    rw [List.singleton_append, List.cons_append]
    rw [parseSigned_cons, if_pos rfl]
    rw [hcore]
    omega
  · rw [if_neg hn, List.nil_append]
    have hcdig : c.isDigit = true := by
      apply natDigits_isDigit (n.natAbs / 10 ^ s)
      rw [hcs]
      exact List.mem_cons_self c cs
    rw [hcs, List.cons_append]
    rw [parseSigned_cons, if_neg (isDigit_ne_dash hcdig)]
    rw [← List.cons_append, ← hcs]
    rw [hcore]
    omega

/-! ### Percentage and display-width claims -/

theorem jsRound_zero_mul (p : Nat) : jsRound ((0 : ℚ) * 10 ^ p) = 0 := by
  unfold jsRound
  rw [Int.floor_eq_iff] <;> norm_num

theorem jsRound_hundred : jsRound ((100 : ℚ) * 10 ^ (4 : Nat)) = 1000000 := by
  unfold jsRound
  rw [Int.floor_eq_iff] <;> norm_num

theorem jsRound_one : jsRound ((1 : ℚ) * 10 ^ (4 : Nat)) = 10000 := by
  unfold jsRound
  rw [Int.floor_eq_iff] <;> norm_num

/-- C2 counterexample: `bigintPercent(raw, 100, 4)` is not the identity; at
`raw = 1` it returns `100`, because the multiplier is
`round(100 * 10^4) = 10^6` while the divisor is only `10^4`. -/
theorem bigintPercent_hundred_not_identity :
    bigintPercent 1 100 4 = 100 ∧ bigintPercent 1 100 4 ≠ 1 := by
  have h : bigintPercent 1 100 4 = 100 := by
    show Int.tdiv (1 * jsRound ((100 : ℚ) * 10 ^ (4 : Nat))) (10 ^ (4 : Nat)) = 100
    rw [jsRound_hundred]
    decide
  exact ⟨h, by rw [h]; decide⟩

/-- C2 (amended): `bigintPercent` with percent `0` returns `0` for every raw
value and every precision; the `percent` argument is a fraction, so the
identity holds at `percent = 1` (`bigintPercent(raw, 1, 4) = raw`), while
`bigintPercent(raw, 100, 4)` returns `100 * raw`. -/
theorem bigintPercent_zero_one_hundred (n : Int) (p : Nat) :
    bigintPercent n 0 p = 0 ∧ bigintPercent n 1 4 = n ∧ bigintPercent n 100 4 = 100 * n := by
  refine ⟨?_, ?_, ?_⟩
  · show Int.tdiv (n * jsRound ((0 : ℚ) * 10 ^ p)) (10 ^ p) = 0
    rw [jsRound_zero_mul, mul_zero, Int.zero_tdiv]
  · show Int.tdiv (n * jsRound ((1 : ℚ) * 10 ^ (4 : Nat))) (10 ^ (4 : Nat)) = n
    rw [jsRound_one, show ((10 : Int) ^ (4 : Nat)) = 10000 by norm_num]
    exact Int.mul_tdiv_cancel n (by norm_num)
  · show Int.tdiv (n * jsRound ((100 : ℚ) * 10 ^ (4 : Nat))) (10 ^ (4 : Nat)) = 100 * n
    rw [jsRound_hundred, show ((10 : Int) ^ (4 : Nat)) = 10000 by norm_num]
    rw [show n * 1000000 = n * 100 * 10000 by ring]
    rw [Int.mul_tdiv_cancel (n * 100) (by norm_num)]
    ring

/-- C1: at the failing input of the spec's formatting example, the code
returns the full 18-digit fractional part: `bigintFormat` has only two
parameters, so the display width `6` passed at every call site is dropped and
no truncation to six digits happens. The spec requires `"0.000050"`. -/
theorem bigintFormat_drops_display_width :
    bigintFormatCall 50000000000000 18 6 = "0.000050000000000000" ∧
      bigintFormatCall 50000000000000 18 6 ≠ "0.000050" := by
  constructor
  · rfl
  · decide

/-- C6 counterexample: a format call requesting more display digits than the
scale (`displayDigits = 6 > scale = 2`) does not fail at all: it returns the
ordinary full-scale string `"0.05"`. The code has no validation and no
`InvalidPrecision` error anywhere. -/
theorem bigintFormat_no_invalid_precision_failure : bigintFormatCall 5 2 6 = "0.05" := by
  rfl

/-- C6 (amended): `bigintFormat` performs no display-digits validation and has
no failure path: a call passing `displayDigits > scale` simply ignores the
extra argument and returns the full-scale formatted string. -/
theorem bigintFormat_ignores_excess_display_digits (n : Int) (s d : Nat) (h : s < d) :
    bigintFormatCall n s d = bigintFormat n s := rfl

/-- Witness for the amended C6 theorem at a concrete input satisfying its
hypothesis. -/
theorem bigintFormat_ignores_excess_display_digits_witness :
    2 < 6 ∧ bigintFormatCall 7 2 6 = bigintFormat 7 2 :=
  ⟨by decide, bigintFormat_ignores_excess_display_digits 7 2 6 (by decide)⟩

/-! ### Embedding of `src/lib/notify.ts` -/

/-- Severity levels of a report notification, totally ordered
INFO < WARNING < ERROR. -/
inductive ReportLevel where
  | INFO
  | WARNING
  | ERROR
deriving DecidableEq

/-- Rank of a severity level in the total order INFO < WARNING < ERROR. -/
def ReportLevel.rank : ReportLevel → Nat
  | .INFO => 0
  | .WARNING => 1
  | .ERROR => 2

/-- Header text the code stores in `reportLevel` for each severity. -/
def ReportLevel.header : ReportLevel → String
  | .INFO => "ℹ️ INFO"
  | .WARNING => "⚠️ WARNING"
  | .ERROR => "🔥 ERROR"

/-- Per-status counters of a harvest report summary
(`report.summary.statuses`). -/
structure HarvestStatuses where
  error : Nat
  warning : Nat
  notice : Nat
  info : Nat
deriving DecidableEq

/-- Summary fields of a harvest report read by `notifyHarvestReport`. -/
structure HarvestSummary where
  harvested : Nat
  skipped : Nat
  totalStrategies : Nat
  statuses : HarvestStatuses
deriving DecidableEq

/-- Summary fields of an unwrap report read by `notifyUnwrapReport`. -/
structure UnwrapSummary where
  success : Bool
  unwrapped : Bool
deriving DecidableEq

/-- Collector balances read before/after an operation (wei amounts). -/
structure Balances where
  balanceWei : Int
  wnativeBalanceWei : Int
  aggregatedBalanceWei : Int

/-- Tri-state result of an async sub-operation: fulfilled with a value,
rejected with a reason, or absent (the operation never ran / is still
pending, `undefined` in JS). -/
inductive SettledOutcome (T : Type) where
  | fulfilled (value : T)
  | rejected (reason : String)
  | absent

/-- Modelled from the spec: `asyncResultGet` is defined in
`src/util/async.ts`, which is not among the provided sources.  Spec §4.2
defines it as the safe projection: apply the mapping function to a fulfilled
value, otherwise return the "unavailable" marker (JS `undefined`, modelled as
`Option.none`) without raising. -/
def asyncResultGet {T U : Type} (o : SettledOutcome T) (f : T → U) : Option U :=
  match o with
  | .fulfilled v => some (f v)
  | .rejected _ => none
  | .absent => none

/-- JS `x || '??'` for `x : string | undefined` as written in
`getBalanceReportTable`: `undefined` and the empty string are falsy, so both
fall back to the default. -/
def jsOrDefault (x : Option String) (dflt : String) : String :=
  match x with
  | some s => if s = "" then dflt else s
  | none => dflt

/-- One numeric cell of the balance table in `getBalanceReportTable`:
`asyncResultGet(report.collectorBalance…, b => bigintFormat(…, 18, 6)) || '??'`. -/
def renderBalanceCell {T : Type} (o : SettledOutcome T) (f : T → String) : String :=
  jsOrDefault (asyncResultGet o f) "??"

/-- Fields of a harvest report read by `notifyHarvestReport`;
`detailMessages` holds the optional `discordMessage` of each strategy
report. -/
structure HarvestReport where
  chain : String
  summary : HarvestSummary
  collectorBalanceBefore : SettledOutcome Balances
  collectorBalanceAfter : SettledOutcome Balances
  detailMessages : List (Option String)

/-- Fields of an unwrap report read by `notifyUnwrapReport`. -/
structure UnwrapReport where
  chain : String
  summary : UnwrapSummary
  collectorBalanceBefore : SettledOutcome Balances
  collectorBalanceAfter : SettledOutcome Balances

/-- Static configuration read by `src/lib/notify.ts`: JS truthiness of the
two webhook URLs, the `DISCORD_NOTIFY_UNEVENTFUL_HARVEST` flag, and the
`DISCORD_PING_ROLE_IDS_ON_ERROR` list together with its JS truthiness. -/
structure NotifyConfig where
  reportWebhookUrlSet : Bool
  alertWebhookUrlSet : Bool
  notifyUneventful : Bool
  pingRoleIdsTruthy : Bool
  pingRoleIds : List String

/-- Severity computed by `notifyHarvestReport` (the `reportLevel` if/else
chain, lines 48-55): ERROR if any error, else WARNING if any warning, else
INFO. -/
def harvestReportLevel (st : HarvestStatuses) : ReportLevel :=
  if 0 < st.error then .ERROR
  else if 0 < st.warning then .WARNING
  else .INFO

/-- Severity computed by `notifyUnwrapReport`: ERROR when the unwrap failed,
else INFO. -/
def unwrapReportLevel (s : UnwrapSummary) : ReportLevel :=
  if s.success = false then .ERROR else .INFO

/-- Uneventfulness test of `notifyHarvestReport` (lines 34-39): nothing
harvested and no error, warning or notice. -/
def uneventfulHarvest (s : HarvestSummary) : Bool :=
  s.harvested == 0 && s.statuses.error == 0 && s.statuses.warning == 0
    && s.statuses.notice == 0

/-- Role-ping construction of `notifyHarvestReport` (lines 82-90), including
the hardcoded `&& false` under the comment "disable role ping for now".  A JS
array interpolated into a template string joins its elements with commas. -/
def harvestRolePing (cfg : NotifyConfig) (s : HarvestSummary) : String :=
  if (decide (0 < s.statuses.error) || decide (0 < s.statuses.warning)
      || cfg.notifyUneventful) && cfg.pingRoleIdsTruthy && false
  then String.intercalate "," (cfg.pingRoleIds.map (fun roleId => "<@&" ++ roleId ++ ">"))
  else ""

/-- Role-ping construction of `notifyUnwrapReport` (lines 154-158), likewise
hardcoded off by `&& false`. -/
def unwrapRolePing (cfg : NotifyConfig) (s : UnwrapSummary) : String :=
  if (!s.success || cfg.notifyUneventful) && cfg.pingRoleIdsTruthy && false
  then String.intercalate "," (cfg.pingRoleIds.map (fun roleId => "<@&" ++ roleId ++ ">"))
  else ""

/-- Error value thrown by the steps inside the `try` block (serializing the
report, building the form, posting with `axios`). -/
structure JsError where
  message : String

/-- Observable outcome of one notify call: whether the gates allowed a
dispatch, the severity and role-ping text of the assembled message, and
whether the transport delivered it. -/
structure NotifyOutcome where
  dispatched : Bool
  level : Option ReportLevel
  rolePing : Option String
  delivered : Bool
deriving DecidableEq

/-- Outcome of a call that returned at a gate, before assembling a message. -/
def noSendOutcome : NotifyOutcome := ⟨false, none, none, false⟩

/-- Embedding of `notifyHarvestReport` (lines 28-122).  The combined outcome
of the fallible steps inside the `try` block is the input `dispatch`; the
`catch` logs and swallows any failure, so every branch returns `Except.ok`.
The two early `return`s model the missing-webhook gate and the uneventful
gate. -/
def notifyHarvestReport (cfg : NotifyConfig) (r : HarvestReport)
    (dispatch : Except JsError Unit) : Except JsError NotifyOutcome :=
  if !cfg.reportWebhookUrlSet then .ok noSendOutcome
  else if uneventfulHarvest r.summary && !cfg.notifyUneventful then .ok noSendOutcome
  else
    let level := harvestReportLevel r.summary.statuses
    let rolePing := harvestRolePing cfg r.summary
    match dispatch with
    | .ok _ => .ok ⟨true, some level, some rolePing, true⟩
    | .error _ => .ok ⟨true, some level, some rolePing, false⟩

/-- Embedding of `notifyUnwrapReport` (lines 124-187), with the
uneventfulness test `success === true && unwrapped === false`. -/
def notifyUnwrapReport (cfg : NotifyConfig) (r : UnwrapReport)
    (dispatch : Except JsError Unit) : Except JsError NotifyOutcome :=
  if !cfg.reportWebhookUrlSet then .ok noSendOutcome
  else if (r.summary.success && !r.summary.unwrapped) && !cfg.notifyUneventful then
    .ok noSendOutcome
  else
    let level := unwrapReportLevel r.summary
    let rolePing := unwrapRolePing cfg r.summary
    match dispatch with
    | .ok _ => .ok ⟨true, some level, some rolePing, true⟩
    | .error _ => .ok ⟨true, some level, some rolePing, false⟩

/-- Embedding of `notifyError` (lines 224-254): gate on the alert webhook,
then a `try`/`catch` around the post of the assembled alert message
(`doing` and the pretty-printed context JSON). -/
def notifyError (cfg : NotifyConfig) (doing : String) (dataJson : String)
    (dispatch : Except JsError Unit) : Except JsError NotifyOutcome :=
  if !cfg.alertWebhookUrlSet then .ok noSendOutcome
  else
    match dispatch with
    | .ok _ => .ok ⟨true, none, none, true⟩
    | .error _ => .ok ⟨true, none, none, false⟩

/-- Whether a notify call attempted a dispatch to the transport. -/
def dispatchedOf (e : Except JsError NotifyOutcome) : Bool :=
  match e with
  | .ok o => o.dispatched
  | .error _ => false

/-- Severity of the message a notify call assembled, when it assembled one. -/
def levelOf (e : Except JsError NotifyOutcome) : Option ReportLevel :=
  match e with
  | .ok o => o.level
  | .error _ => none

/-- Role-ping text of the message a notify call assembled, when it assembled
one. -/
def rolePingOf (e : Except JsError NotifyOutcome) : Option String :=
  match e with
  | .ok o => o.rolePing
  | .error _ => none

theorem reportLevel_rank_le_two (l : ReportLevel) : l.rank ≤ 2 := by
  cases l <;> decide

/-- C3: the severity of a harvest report is ERROR if `statuses.error > 0`,
else WARNING if `statuses.warning > 0`, else INFO; it depends on no status
count other than `error` and `warning`; and adding one to `statuses.error`
never decreases it in the total order INFO < WARNING < ERROR. -/
theorem harvestReportLevel_classification :
    (∀ st : HarvestStatuses, harvestReportLevel st =
        if 0 < st.error then ReportLevel.ERROR
        else if 0 < st.warning then ReportLevel.WARNING
        else ReportLevel.INFO)
    ∧ (∀ e w nc ic nc2 ic2,
        harvestReportLevel ⟨e, w, nc, ic⟩ = harvestReportLevel ⟨e, w, nc2, ic2⟩)
    ∧ (∀ e w nc ic, (harvestReportLevel ⟨e, w, nc, ic⟩).rank
        ≤ (harvestReportLevel ⟨e + 1, w, nc, ic⟩).rank) := by
  refine ⟨fun st => rfl, fun e w nc ic nc2 ic2 => rfl, ?_⟩
  intro e w nc ic
  have hR : harvestReportLevel ⟨e + 1, w, nc, ic⟩ = ReportLevel.ERROR := by
    unfold harvestReportLevel
    simp
  rw [hR]
  exact reportLevel_rank_le_two _

/-- C4: for an uneventful harvest report (nothing harvested, no error,
warning or notice), `notifyHarvestReport` makes no dispatch when the
uneventful flag is off; when the flag is on (and the webhook is configured,
without which nothing is ever sent) the report is dispatched at level INFO. -/
theorem uneventful_harvest_policy (cfg : NotifyConfig) (r : HarvestReport)
    (d : Except JsError Unit) (h : uneventfulHarvest r.summary = true) :
    (cfg.notifyUneventful = false → notifyHarvestReport cfg r d = Except.ok noSendOutcome)
    ∧ (cfg.notifyUneventful = true → cfg.reportWebhookUrlSet = true →
        dispatchedOf (notifyHarvestReport cfg r d) = true
        ∧ levelOf (notifyHarvestReport cfg r d) = some ReportLevel.INFO) := by
  have hst : r.summary.statuses.error = 0 ∧ r.summary.statuses.warning = 0 := by
    unfold uneventfulHarvest at h
    simp only [Bool.and_eq_true, beq_iff_eq] at h
    exact ⟨h.1.1.2, h.1.2⟩
  constructor
  · intro hf
    unfold notifyHarvestReport
    by_cases hw : cfg.reportWebhookUrlSet
    · rw [hw]
      simp [h, hf]
    · simp [hw]
  · intro ht hw
    have hlvl : harvestReportLevel r.summary.statuses = ReportLevel.INFO := by
      unfold harvestReportLevel
      rw [if_neg (by omega), if_neg (by omega)]
    unfold notifyHarvestReport
    rw [hw, ht]
    cases d <;> simp [dispatchedOf, levelOf, hlvl]

/-- Witness for C4 at a concrete uneventful report, once with the flag off
and once with it on. -/
theorem uneventful_harvest_policy_witness :
    notifyHarvestReport ⟨true, true, false, true, []⟩
        ⟨"bsc", ⟨0, 3, 3, ⟨0, 0, 0, 2⟩⟩, .absent, .absent, []⟩ (Except.ok ())
      = Except.ok noSendOutcome
    ∧ dispatchedOf (notifyHarvestReport ⟨true, true, true, true, []⟩
        ⟨"bsc", ⟨0, 3, 3, ⟨0, 0, 0, 2⟩⟩, .absent, .absent, []⟩ (Except.ok ())) = true
    ∧ levelOf (notifyHarvestReport ⟨true, true, true, true, []⟩
        ⟨"bsc", ⟨0, 3, 3, ⟨0, 0, 0, 2⟩⟩, .absent, .absent, []⟩ (Except.ok ()))
      = some ReportLevel.INFO :=
  ⟨(uneventful_harvest_policy _ _ _ (by decide)).1 rfl,
   ((uneventful_harvest_policy _ _ _ (by decide)).2 rfl rfl).1,
   ((uneventful_harvest_policy _ _ _ (by decide)).2 rfl rfl).2⟩

/-- C5: for an unwrap report with `success = true` and `unwrapped = false`,
when the uneventful flag is off, `notifyUnwrapReport` returns without any
call to the transport collaborator. -/
theorem uneventful_unwrap_no_dispatch (cfg : NotifyConfig) (r : UnwrapReport)
    (d : Except JsError Unit) (h1 : r.summary.success = true)
    (h2 : r.summary.unwrapped = false) (h3 : cfg.notifyUneventful = false) :
    notifyUnwrapReport cfg r d = Except.ok noSendOutcome
    ∧ dispatchedOf (notifyUnwrapReport cfg r d) = false := by
  have hmain : notifyUnwrapReport cfg r d = Except.ok noSendOutcome := by
    unfold notifyUnwrapReport
    by_cases hw : cfg.reportWebhookUrlSet
    · rw [hw]
      simp [h1, h2, h3]
    · simp [hw]
  exact ⟨hmain, by rw [hmain]; rfl⟩

/-- Witness for C5 at a concrete successful-but-empty unwrap report. -/
theorem uneventful_unwrap_no_dispatch_witness :
    notifyUnwrapReport ⟨true, true, false, true, []⟩
        ⟨"bsc", ⟨true, false⟩, .absent, .absent⟩ (Except.ok ())
      = Except.ok noSendOutcome
    ∧ dispatchedOf (notifyUnwrapReport ⟨true, true, false, true, []⟩
        ⟨"bsc", ⟨true, false⟩, .absent, .absent⟩ (Except.ok ())) = false :=
  uneventful_unwrap_no_dispatch _ _ _ rfl rfl rfl

/-- C8: whatever the outcome of the outbound transport call, each of the
three notify entry points returns normally (`Except.ok`): failures of the
`try` block are caught, logged and swallowed, never propagated. -/
theorem notify_swallows_transport_failures :
    ∀ (cfg : NotifyConfig) (hr : HarvestReport) (ur : UnwrapReport)
      (doing dataJson : String) (d1 d2 d3 : Except JsError Unit),
      (notifyHarvestReport cfg hr d1).isOk = true
      ∧ (notifyUnwrapReport cfg ur d2).isOk = true
      ∧ (notifyError cfg doing dataJson d3).isOk = true := by
  intro cfg hr ur doing dataJson d1 d2 d3
  refine ⟨?_, ?_, ?_⟩
  · unfold notifyHarvestReport
    split
    · rfl
    · split
      · rfl
      · cases d1 <;> rfl
  · unfold notifyUnwrapReport
    split
    · rfl
    · split
      · rfl
      · cases d2 <;> rfl
  · unfold notifyError
    split
    · rfl
    · cases d3 <;> rfl

/-- C9: the safe projection used for the balance cells is total (it is a
function, never raising): a fulfilled outcome projects through the mapping
function, while a rejected or absent outcome renders as the two-character
sentinel regardless of the mapping function. -/
theorem settled_outcome_safe_projection :
    (∀ (T : Type) (f : T → String) (reason : String),
        renderBalanceCell (SettledOutcome.rejected reason) f = "??")
    ∧ (∀ (T : Type) (f : T → String),
        renderBalanceCell (SettledOutcome.absent : SettledOutcome T) f = "??")
    ∧ (∀ (T : Type) (v : T) (f : T → String),
        asyncResultGet (SettledOutcome.fulfilled v) f = some (f v)) :=
  ⟨fun _ _ _ => rfl, fun _ _ => rfl, fun _ _ _ => rfl⟩

theorem harvestRolePing_empty (cfg : NotifyConfig) (s : HarvestSummary) :
    harvestRolePing cfg s = "" := by
  unfold harvestRolePing
  simp

theorem unwrapRolePing_empty (cfg : NotifyConfig) (s : UnwrapSummary) :
    unwrapRolePing cfg s = "" := by
  unfold unwrapRolePing
  simp

/-- C10: with the hardcoded `&& false` in both role-ping expressions, the
role-ping portion of every assembled message is the empty string, for every
configuration and every report. -/
theorem role_ping_hardcoded_off :
    (∀ (cfg : NotifyConfig) (s : HarvestSummary), harvestRolePing cfg s = "")
    ∧ (∀ (cfg : NotifyConfig) (s : UnwrapSummary), unwrapRolePing cfg s = "")
    ∧ (∀ (cfg : NotifyConfig) (r : HarvestReport) (d : Except JsError Unit),
        (rolePingOf (notifyHarvestReport cfg r d)).getD "" = "")
    ∧ (∀ (cfg : NotifyConfig) (r : UnwrapReport) (d : Except JsError Unit),
        (rolePingOf (notifyUnwrapReport cfg r d)).getD "" = "") := by
  refine ⟨harvestRolePing_empty, unwrapRolePing_empty, ?_, ?_⟩
  · intro cfg r d
    unfold notifyHarvestReport
    split
    · rfl
    · split
      · rfl
      · cases d <;> simp [rolePingOf, harvestRolePing_empty]
  · intro cfg r d
    unfold notifyUnwrapReport
    split
    · rfl
    · split
      · rfl
      · cases d <;> simp [rolePingOf, unwrapRolePing_empty]
